import Mathlib

/-!
Shallow embedding of the place-execution state machine of
`object_manipulator/src/place_execution/place_executor.cpp`.

External collaborators (tf transform lookup, interpolated-IK planning,
state-validity checking, motion execution, hand description) are modelled
as an environment of functions (`MechEnv`).  Mutable instance state
(`marker_id_`, `place_trajectory_`, `retreat_trajectory_`) is threaded
explicitly as `ExecState`.  Thrown `MechanismException`s become the
`.error` branch of `Except`; an out-of-bounds `std::vector` access (which
is undefined behaviour in the source) becomes the distinguished error
`RunError.outOfBounds`.  Every call into a motion-execution capability is
recorded in an effect trace.
-/

namespace ObjMan

abbrev Frame := String

/-- An opaque rigid-body pose; its contents are never inspected by the
placement logic, only passed to external services. -/
structure Pose where
  val : Int
deriving DecidableEq, Repr

structure PoseStamped where
  frame_id : Frame
  pose : Pose
deriving DecidableEq, Repr

structure Vector3 where
  x : Int
  y : Int
  z : Int
deriving DecidableEq, Repr

def negateVec (v : Vector3) : Vector3 := ⟨-v.x, -v.y, -v.z⟩

structure Vector3Stamped where
  frame_id : Frame
  vector : Vector3
deriving DecidableEq, Repr

structure JointTrajectoryPoint where
  positions : List Int
deriving DecidableEq, Repr

structure JointTrajectory where
  points : List JointTrajectoryPoint
deriving DecidableEq, Repr

structure JointState where
  position : List Int
deriving DecidableEq, Repr

structure Grasp where
  grasp_pose : Pose
  grasp_posture : JointState
  pre_grasp_posture : JointState
deriving DecidableEq, Repr

structure PositionConstraint where
  tag : Int
deriving DecidableEq, Repr

structure OrientationConstraint where
  tag : Int
deriving DecidableEq, Repr

structure JointConstraint where
  tag : Int
deriving DecidableEq, Repr

structure VisibilityConstraint where
  tag : Int
deriving DecidableEq, Repr

structure Constraints where
  position_constraints : List PositionConstraint
  orientation_constraints : List OrientationConstraint
  joint_constraints : List JointConstraint
  visibility_constraints : List VisibilityConstraint
deriving DecidableEq, Repr

inductive CollisionOpType
  | DISABLE
  | ENABLE
deriving DecidableEq, Repr

structure CollisionOperation where
  object1 : String
  object2 : String
  operation : CollisionOpType
deriving DecidableEq, Repr

def COLLISION_SET_ALL : String := "all"

structure LinkPadding where
  link_name : String
  padding : Int
deriving DecidableEq, Repr

structure GripperTranslation where
  direction : Vector3Stamped
  desired_distance : Int
  min_distance : Int
deriving DecidableEq, Repr

structure PlaceGoal where
  arm_name : String
  grasp : Grasp
  approach : GripperTranslation
  desired_retreat_distance : Int
  min_retreat_distance : Int
  collision_object_name : String
  collision_support_surface_name : String
  allow_gripper_support_collision : Bool
  additional_collision_operations : List CollisionOperation
  additional_link_padding : List LinkPadding
  path_constraints : Constraints
  place_padding : Int
  only_perform_feasibility_test : Bool
deriving DecidableEq, Repr

/-- `arm_navigation_msgs::ArmNavigationErrorCodes` value for a collision
constraint violation. -/
def COLLISION_CONSTRAINTS_VIOLATED : Int := -23

/-- `arm_navigation_msgs::ArmNavigationErrorCodes` value for a joint limit
violation. -/
def JOINT_LIMITS_VIOLATED : Int := -21

inductive ResultCode
  | SUCCESS
  | PLACE_FAILED
  | MOVE_ARM_FAILED
  | RETREAT_FAILED
  | PLACE_IN_COLLISION
  | PLACE_OUT_OF_REACH
  | PLACE_UNFEASIBLE
  | PREPLACE_IN_COLLISION
  | PREPLACE_OUT_OF_REACH
  | PREPLACE_UNFEASIBLE
  | RETREAT_IN_COLLISION
  | RETREAT_OUT_OF_REACH
  | RETREAT_UNFEASIBLE
deriving DecidableEq, Repr

/-- The result emitted for one place-location attempt: a code from the
closed taxonomy plus the boolean flag attached at each `Result(...)`
construction site, which the specification interprets as
location-specificity. -/
structure PlaceLocationResult where
  result_code : ResultCode
  location_specific : Bool
deriving DecidableEq, Repr

def Result (c : ResultCode) (b : Bool) : PlaceLocationResult := ⟨c, b⟩

/-- Arguments of one `getInterpolatedIK` service call, in source order. -/
structure IKRequest where
  arm_name : String
  target : PoseStamped
  direction : Vector3Stamped
  desired_distance : Int
  seed : List Int
  posture : JointState
  collision_ops : List CollisionOperation
  link_padding : List LinkPadding
  search_backward : Bool
deriving DecidableEq, Repr

/-- The triple an interpolated-IK call produces: the planner error code,
the trajectory written to the output parameter, and the distance covered. -/
structure IKResult where
  error_code : Int
  trajectory : JointTrajectory
  actual_distance : Int
deriving DecidableEq, Repr

structure ValidityRequest where
  arm_name : String
  positions : List Int
  collision_ops : List CollisionOperation
  link_padding : List LinkPadding
deriving DecidableEq, Repr

/-- The external collaborators of the place executor, as deterministic
functions of the arguments each call passes. -/
structure MechEnv where
  composePose : Pose → Pose → Pose
  waitForTransform : Frame → Frame → Bool
  transformPose : Frame → Pose → Except String Pose
  robotFrame : String → Frame
  gripperFrame : String → Frame
  gripperCollisionName : String → String
  attachedName : String → String
  approachDirection : String → Vector3
  gripperPadding : String → Int → List LinkPadding
  marker_publisher : Bool
  addGraspMarker : PoseStamped → Int
  getInterpolatedIK : IKRequest → IKResult
  checkStateValidity : ValidityRequest → Bool
  getFK : String → List Int → Option Pose
  moveArmConstrained :
    String → PoseStamped → List CollisionOperation → List LinkPadding →
      Constraints → Int → Bool → Bool
  attemptMoveArmToGoal :
    String → List Int → List CollisionOperation → List LinkPadding → Bool
  attemptTrajectory : String → JointTrajectory → Bool → Bool
  translateGripper :
    String → Vector3Stamped → List CollisionOperation → List LinkPadding →
      Int → Int → Int

/-- Mutable fields of a `PlaceExecutor` instance, threaded explicitly. -/
structure ExecState where
  marker_id : Int
  place_trajectory : JointTrajectory
  retreat_trajectory : JointTrajectory
deriving DecidableEq, Repr

/-- The state a freshly constructed executor starts in. -/
def initialState : ExecState :=
  { marker_id := -1
    place_trajectory := ⟨[]⟩
    retreat_trajectory := ⟨[]⟩ }

inductive MechErr
  | transformUnavailable (sourceFrame targetFrame : Frame)
  | transformFailure (msg : String)
  | fkFailure
deriving DecidableEq, Repr

inductive RunError
  | mech (e : MechErr)
  | outOfBounds
deriving DecidableEq, Repr

/-- One observable call into an external collaborator. -/
inductive Effect
  | addGraspMarkerCall (pose : PoseStamped)
  | setMarkerPoseCall (id : Int) (pose : PoseStamped)
  | getInterpolatedIKCall (req : IKRequest)
  | checkStateValidityCall (req : ValidityRequest)
  | getFKCall (arm : String) (positions : List Int)
  | moveArmConstrainedCall (arm : String) (pose : PoseStamped)
  | attemptMoveArmToGoalCall (arm : String) (positions : List Int)
  | attemptTrajectoryCall (arm : String) (traj : JointTrajectory)
  | detachCall (arm : String) (objectName : String)
  | handPostureCall (arm : String)
  | translateGripperCall (arm : String)
deriving DecidableEq, Repr

/-- Calls belonging to the approach, detach/release, or retreat steps of
the orchestrator. -/
def Effect.isApproachDetachOrRetreat : Effect → Bool
  | .attemptTrajectoryCall _ _ => true
  | .detachCall _ _ => true
  | .handPostureCall _ => true
  | .translateGripperCall _ => true
  | _ => false

/-- Calls that command the motion-execution layer (physical motion,
detachment, or gripper actuation), as opposed to planning or lookup. -/
def Effect.isMotion : Effect → Bool
  | .moveArmConstrainedCall _ _ => true
  | .attemptMoveArmToGoalCall _ _ => true
  | .attemptTrajectoryCall _ _ => true
  | .detachCall _ _ => true
  | .handPostureCall _ => true
  | .translateGripperCall _ => true
  | _ => false

/-- `PlaceExecutor::computeGripperPose`: compose the place pose with the
grasp-relative gripper pose, then transform into the requested frame.  A
missing transform or a transform exception is a thrown
`MechanismException`, modelled as `.error`. -/
def computeGripperPose (env : MechEnv) (place_location : PoseStamped)
    (grasp_pose : Pose) (frame_id : Frame) : Except MechErr PoseStamped :=
  let grasp_trans := env.composePose place_location.pose grasp_pose
  if env.waitForTransform frame_id place_location.frame_id = false then
    .error (.transformUnavailable place_location.frame_id frame_id)
  else
    match env.transformPose frame_id grasp_trans with
    | .error ex => .error (.transformFailure ex)
    | .ok p => .ok ⟨frame_id, p⟩

/-- `PlaceExecutor::constraintsUnderstandable`: true on an entirely empty
constraint set, or on exactly one orientation constraint and nothing
else. -/
def constraintsUnderstandable (c : Constraints) : Bool :=
  if c.position_constraints.isEmpty && c.orientation_constraints.isEmpty &&
      c.joint_constraints.isEmpty && c.visibility_constraints.isEmpty then
    true
  else if c.orientation_constraints.length == 1 && c.position_constraints.isEmpty &&
      c.joint_constraints.isEmpty && c.visibility_constraints.isEmpty then
    true
  else
    false

/-- Place-phase ordered collision operations: disable object↔support (when
both names are non-empty); when allowed, disable gripper↔support; append
the caller's overrides. -/
def placePhaseOrd (env : MechEnv) (g : PlaceGoal) : List CollisionOperation :=
  let l1 : List CollisionOperation :=
    if !g.collision_object_name.isEmpty && !g.collision_support_surface_name.isEmpty then
      [⟨g.collision_object_name, g.collision_support_surface_name, .DISABLE⟩]
    else []
  let l2 : List CollisionOperation :=
    if g.allow_gripper_support_collision then
      [⟨env.gripperCollisionName g.arm_name, g.collision_support_surface_name, .DISABLE⟩]
    else []
  (l1 ++ l2) ++ g.additional_collision_operations

/-- Place-phase link padding: zero gripper padding, the attached object
padded by the goal's place padding, then the caller's overrides. -/
def placePhasePadding (env : MechEnv) (g : PlaceGoal) : List LinkPadding :=
  (env.gripperPadding g.arm_name 0 ++
      [⟨env.attachedName g.arm_name, g.place_padding⟩]) ++
    g.additional_link_padding

/-- Negated approach direction used for the backward place search. -/
def placeDirection (g : PlaceGoal) : Vector3Stamped :=
  ⟨g.approach.direction.frame_id, negateVec g.approach.direction.vector⟩

/-- Arguments of the place-phase (backward) interpolated-IK call. -/
def placePhaseRequest (env : MechEnv) (g : PlaceGoal) (gp : PoseStamped) : IKRequest :=
  { arm_name := g.arm_name
    target := gp
    direction := placeDirection g
    desired_distance := g.approach.desired_distance
    seed := []
    posture := g.grasp.grasp_posture
    collision_ops := placePhaseOrd env g
    link_padding := placePhasePadding env g
    search_backward := true }

/-- Retreat-search ordered collision operations: disable all collisions on
the grasped object (when named); when allowed, disable gripper↔support;
append the caller's overrides. -/
def retreatSearchOrd (env : MechEnv) (g : PlaceGoal) : List CollisionOperation :=
  let l1 : List CollisionOperation :=
    if !g.collision_object_name.isEmpty then
      [⟨g.collision_object_name, COLLISION_SET_ALL, .DISABLE⟩]
    else []
  let l2 : List CollisionOperation :=
    if g.allow_gripper_support_collision then
      [⟨env.gripperCollisionName g.arm_name, g.collision_support_surface_name, .DISABLE⟩]
    else []
  (l1 ++ l2) ++ g.additional_collision_operations

/-- Negated hand approach direction, stamped in the gripper frame. -/
def retreatDirection (env : MechEnv) (arm : String) : Vector3Stamped :=
  ⟨env.gripperFrame arm, negateVec (env.approachDirection arm)⟩

/-- Arguments of the retreat-phase (forward) interpolated-IK call, seeded
with the final joint configuration of the place trajectory. -/
def retreatPhaseRequest (env : MechEnv) (g : PlaceGoal) (gp : PoseStamped)
    (seed : List Int) : IKRequest :=
  { arm_name := g.arm_name
    target := gp
    direction := retreatDirection env g.arm_name
    desired_distance := g.desired_retreat_distance
    seed := seed
    posture := g.grasp.pre_grasp_posture
    collision_ops := retreatSearchOrd env g
    link_padding := placePhasePadding env g
    search_backward := false }

/-- The validity request for the first waypoint of the place trajectory:
only the caller's own collision and padding overrides are passed, not the
zero-gripper-padding policy built for the interpolated search. -/
def firstWaypointValidityRequest (g : PlaceGoal) (positions : List Int) : ValidityRequest :=
  { arm_name := g.arm_name
    positions := positions
    collision_ops := g.additional_collision_operations
    link_padding := g.additional_link_padding }

/-- Marker bookkeeping at the start of trajectory preparation: publish a
new grasp marker the first time, move the existing one afterwards. -/
def markerStep (env : MechEnv) (s : ExecState) (gp : PoseStamped) :
    ExecState × List Effect :=
  if env.marker_publisher then
    if s.marker_id < 0 then
      ({ s with marker_id := env.addGraspMarker gp }, [Effect.addGraspMarkerCall gp])
    else
      (s, [Effect.setMarkerPoseCall s.marker_id gp])
  else (s, [])

/-- Sub-classification of a failed place search when the trajectory is
empty, keyed on the planner error code. -/
def placeCodeFor (error_code : Int) : ResultCode :=
  if error_code = COLLISION_CONSTRAINTS_VIOLATED then .PLACE_IN_COLLISION
  else if error_code = JOINT_LIMITS_VIOLATED then .PLACE_OUT_OF_REACH
  else .PLACE_UNFEASIBLE

/-- Sub-classification of a failed place search when the trajectory is
non-empty, keyed on the planner error code. -/
def preplaceCodeFor (error_code : Int) : ResultCode :=
  if error_code = COLLISION_CONSTRAINTS_VIOLATED then .PREPLACE_IN_COLLISION
  else if error_code = JOINT_LIMITS_VIOLATED then .PREPLACE_OUT_OF_REACH
  else .PREPLACE_UNFEASIBLE

/-- Sub-classification of a failed retreat search with a non-empty
trajectory, keyed on the planner error code. -/
def retreatCodeFor (error_code : Int) : ResultCode :=
  if error_code = COLLISION_CONSTRAINTS_VIOLATED then .RETREAT_IN_COLLISION
  else if error_code = JOINT_LIMITS_VIOLATED then .RETREAT_OUT_OF_REACH
  else .RETREAT_UNFEASIBLE

/-- `PlaceExecutor::prepareInterpolatedTrajectories`: backward place
search, first-waypoint validity check, forward retreat search.  The
`error_code` variable of the source is assigned only by the place-phase
call; the retreat-phase call's return value is discarded.  The unguarded
`points.front()` / `points.back()` accesses of the source surface as
`RunError.outOfBounds` when the trajectory is empty. -/
def prepareInterpolatedTrajectories (env : MechEnv) (place_goal : PlaceGoal)
    (place_location : PoseStamped) (s0 : ExecState) :
    Except RunError (PlaceLocationResult × ExecState × List Effect) :=
  match computeGripperPose env place_location place_goal.grasp.grasp_pose
      (env.robotFrame place_goal.arm_name) with
  | .error e => .error (.mech e)
  | .ok gripper_place_pose =>
    let ms := markerStep env s0 gripper_place_pose
    let req1 := placePhaseRequest env place_goal gripper_place_pose
    let ik1 := env.getInterpolatedIK req1
    let s2 : ExecState := { ms.1 with place_trajectory := ik1.trajectory }
    let eff1 := ms.2 ++ [Effect.getInterpolatedIKCall req1]
    if ik1.actual_distance < place_goal.approach.min_distance then
      if ik1.trajectory.points.isEmpty then
        .ok (Result (placeCodeFor ik1.error_code) true, s2, eff1)
      else
        .ok (Result (preplaceCodeFor ik1.error_code) true, s2, eff1)
    else
      match ik1.trajectory.points with
      | [] => .error .outOfBounds
      | p0 :: rest =>
        let vreq := firstWaypointValidityRequest place_goal p0.positions
        let eff2 := eff1 ++ [Effect.checkStateValidityCall vreq]
        if env.checkStateValidity vreq = false then
          .ok (Result .PREPLACE_UNFEASIBLE true, s2, eff2)
        else
          let place_joint_angles := (rest.getLastD p0).positions
          let req2 := retreatPhaseRequest env place_goal gripper_place_pose place_joint_angles
          let ik2 := env.getInterpolatedIK req2
          let s3 : ExecState := { s2 with retreat_trajectory := ik2.trajectory }
          let eff3 := eff2 ++ [Effect.getInterpolatedIKCall req2]
          if ik2.actual_distance < place_goal.min_retreat_distance then
            if ik2.trajectory.points.isEmpty then
              .ok (Result (placeCodeFor ik1.error_code) true, s3, eff3)
            else
              .ok (Result (retreatCodeFor ik1.error_code) true, s3, eff3)
          else
            .ok (Result .SUCCESS true, s3, eff3)

/-- `PlaceExecutor::retreat`: translate the gripper along the negated
approach direction and compare the achieved distance to the minimum. -/
def retreat (env : MechEnv) (place_goal : PlaceGoal) :
    PlaceLocationResult × List Effect :=
  let l1 : List CollisionOperation :=
    if !place_goal.collision_object_name.isEmpty then
      [⟨env.gripperCollisionName place_goal.arm_name, place_goal.collision_object_name, .DISABLE⟩]
    else []
  let l2 : List CollisionOperation :=
    if !place_goal.collision_support_surface_name.isEmpty then
      [⟨env.gripperCollisionName place_goal.arm_name, place_goal.collision_support_surface_name, .DISABLE⟩]
    else []
  let ord := (l1 ++ l2) ++ place_goal.additional_collision_operations
  let link_padding :=
    env.gripperPadding place_goal.arm_name 0 ++ place_goal.additional_link_padding
  let direction := retreatDirection env place_goal.arm_name
  let actual_distance :=
    env.translateGripper place_goal.arm_name direction ord link_padding
      place_goal.desired_retreat_distance 0
  let eff := [Effect.translateGripperCall place_goal.arm_name]
  if actual_distance < place_goal.min_retreat_distance then
    (Result .RETREAT_FAILED false, eff)
  else
    (Result .SUCCESS true, eff)

/-- `PlaceExecutor::placeApproach` (the direct, default variant): command
the execution service to attempt the prepared place trajectory.  The
service's return value is discarded; the function returns SUCCESS
unconditionally. -/
def placeApproach (env : MechEnv) (place_goal : PlaceGoal)
    (_place_location : PoseStamped) (s : ExecState) :
    Except RunError (PlaceLocationResult × List Effect) :=
  let _accepted := env.attemptTrajectory place_goal.arm_name s.place_trajectory true
  .ok (Result .SUCCESS true,
    [Effect.attemptTrajectoryCall place_goal.arm_name s.place_trajectory])

/-- The approach step as a capability injected into the orchestrator,
standing for the virtual dispatch on `placeApproach`. -/
abbrev ApproachFn :=
  MechEnv → PlaceGoal → PoseStamped → ExecState →
    Except RunError (PlaceLocationResult × List Effect)

/-- The tail of `PlaceExecutor::place` after the arm has reached the
pre-place configuration: approach, detach, release, retreat. -/
def placeFinish (approachFn : ApproachFn) (env : MechEnv) (place_goal : PlaceGoal)
    (place_location : PoseStamped) (s1 : ExecState) (effs : List Effect) :
    Except RunError (PlaceLocationResult × ExecState × List Effect) :=
  match approachFn env place_goal place_location s1 with
  | .error e => .error e
  | .ok (r2, effA) =>
    let effs2 := effs ++ effA
    if r2.result_code ≠ .SUCCESS then
      .ok (Result .PLACE_FAILED false, s1, effs2)
    else
      let effD := [Effect.detachCall place_goal.arm_name place_goal.collision_object_name,
                   Effect.handPostureCall place_goal.arm_name]
      let rr := retreat env place_goal
      let effs3 := (effs2 ++ effD) ++ rr.2
      if rr.1.result_code ≠ .SUCCESS then
        .ok (Result .RETREAT_FAILED false, s1, effs3)
      else
        .ok (Result .SUCCESS true, s1, effs3)

/-- The constrained pre-place motion attempt of `PlaceExecutor::place`:
taken only when the path constraints are understandable and contain at
least one orientation constraint.  The pre-place pose is recomputed by
forward kinematics from the first trajectory waypoint (failure is a
thrown `MechanismException`), and the source passes the first waypoint's
third joint value as the `moveArmConstrained` timeout.  Returns whether
constrained motion succeeded. -/
def constrainedMoveStep (env : MechEnv) (place_goal : PlaceGoal)
    (place_location : PoseStamped) (frontPos : List Int) :
    Except RunError (Bool × List Effect) :=
  if constraintsUnderstandable place_goal.path_constraints &&
      !place_goal.path_constraints.orientation_constraints.isEmpty then
    match env.getFK place_goal.arm_name frontPos with
    | none => .error (.mech .fkFailure)
    | some fkPose =>
      let place_pose : PoseStamped := ⟨place_location.frame_id, fkPose⟩
      match frontPos[2]? with
      | none => .error .outOfBounds
      | some timeoutArg =>
        .ok (env.moveArmConstrained place_goal.arm_name place_pose
              place_goal.additional_collision_operations
              place_goal.additional_link_padding
              place_goal.path_constraints timeoutArg false,
          [Effect.getFKCall place_goal.arm_name frontPos,
           Effect.moveArmConstrainedCall place_goal.arm_name place_pose])
  else
    .ok (false, [])

/-- `PlaceExecutor::place`, parametrised over the approach capability:
prepare the interpolated trajectories, short-circuit on failure or a
feasibility-only goal, move the arm to pre-place (constrained first when
the path constraints are understandable and non-empty, falling back to
unconstrained), then approach, detach, release, and retreat. -/
def placeWith (approachFn : ApproachFn) (env : MechEnv) (place_goal : PlaceGoal)
    (place_location : PoseStamped) (s0 : ExecState) :
    Except RunError (PlaceLocationResult × ExecState × List Effect) :=
  match prepareInterpolatedTrajectories env place_goal place_location s0 with
  | .error e => .error e
  | .ok (result, s1, eff1) =>
    if result.result_code ≠ .SUCCESS ∨ place_goal.only_perform_feasibility_test = true then
      .ok (result, s1, eff1)
    else
      match s1.place_trajectory.points with
      | [] => .error .outOfBounds
      | p0 :: _ =>
        let frontPos := p0.positions
        match constrainedMoveStep env place_goal place_location frontPos with
        | .error e => .error e
        | .ok (constrainedOk, effC) =>
          if constrainedOk then
            placeFinish approachFn env place_goal place_location s1 (eff1 ++ effC)
          else
            let okU := env.attemptMoveArmToGoal place_goal.arm_name frontPos
              place_goal.additional_collision_operations place_goal.additional_link_padding
            let effU := [Effect.attemptMoveArmToGoalCall place_goal.arm_name frontPos]
            if okU = false then
              .ok (Result .MOVE_ARM_FAILED true, s1, (eff1 ++ effC) ++ effU)
            else
              placeFinish approachFn env place_goal place_location s1 ((eff1 ++ effC) ++ effU)

/-- `PlaceExecutor::place` with the default (direct) approach variant. -/
def place (env : MechEnv) (place_goal : PlaceGoal) (place_location : PoseStamped)
    (s0 : ExecState) :
    Except RunError (PlaceLocationResult × ExecState × List Effect) :=
  placeWith placeApproach env place_goal place_location s0

/-! Concrete instances used to exercise the model. -/

/-- A benign environment: transforms succeed, every service reports
success, planners return empty results unless overridden. -/
def baseEnv : MechEnv :=
  { composePose := fun p q => ⟨p.val + q.val⟩
    waitForTransform := fun _ _ => true
    transformPose := fun _ p => .ok p
    robotFrame := fun _ => "base_link"
    gripperFrame := fun _ => "r_gripper"
    gripperCollisionName := fun a => a ++ "_gripper"
    attachedName := fun a => a ++ "_attached"
    approachDirection := fun _ => ⟨1, 0, 0⟩
    gripperPadding := fun _ _ => []
    marker_publisher := false
    addGraspMarker := fun _ => 0
    getInterpolatedIK := fun _ => ⟨0, ⟨[]⟩, 0⟩
    checkStateValidity := fun _ => true
    getFK := fun _ _ => some ⟨7⟩
    moveArmConstrained := fun _ _ _ _ _ _ _ => true
    attemptMoveArmToGoal := fun _ _ _ _ => true
    attemptTrajectory := fun _ _ _ => true
    translateGripper := fun _ _ _ _ _ _ => 10 }

/-- An environment whose planner succeeds for both searches with
one-waypoint trajectories of three joints each. -/
def happyEnv : MechEnv :=
  { baseEnv with getInterpolatedIK := fun req =>
      if req.search_backward then ⟨0, ⟨[⟨[1, 2, 3]⟩]⟩, 10⟩
      else ⟨0, ⟨[⟨[4, 5, 6]⟩]⟩, 10⟩ }

/-- A typical goal: approach 10 desired and 5 minimum, retreat 10 desired
and 5 minimum, no constraints, no feasibility-only flag. -/
def baseGoal : PlaceGoal :=
  { arm_name := "right_arm"
    grasp := ⟨⟨1⟩, ⟨[0]⟩, ⟨[1]⟩⟩
    approach := ⟨⟨"base_link", ⟨0, 0, 1⟩⟩, 10, 5⟩
    desired_retreat_distance := 10
    min_retreat_distance := 5
    collision_object_name := "obj"
    collision_support_surface_name := "table"
    allow_gripper_support_collision := false
    additional_collision_operations := []
    additional_link_padding := []
    path_constraints := ⟨[], [], [], []⟩
    place_padding := 0
    only_perform_feasibility_test := false }

def baseLoc : PoseStamped := ⟨"base_link", ⟨5⟩⟩

/-- An environment whose planner succeeds backward and reports error code
0 with an empty forward trajectory. -/
def ikVariantEnv : MechEnv :=
  { baseEnv with getInterpolatedIK := fun req =>
      if req.search_backward then ⟨0, ⟨[⟨[1, 2, 3]⟩]⟩, 10⟩ else ⟨0, ⟨[]⟩, 0⟩ }

/-- Same planner behaviour except the forward (retreat-phase) error code
is 5 instead of 0. -/
def ikVariantF : IKRequest → IKResult := fun req =>
  if req.search_backward then ⟨0, ⟨[⟨[1, 2, 3]⟩]⟩, 10⟩ else ⟨5, ⟨[]⟩, 0⟩

/-- A goal identical to the base goal except that the minimum approach
distance is 0, so an empty place trajectory with 0 achieved distance
passes the threshold check. -/
def zeroMinGoal : PlaceGoal :=
  { baseGoal with approach := { baseGoal.approach with min_distance := 0 } }

/-- An environment whose motion-execution service rejects every
trajectory. -/
def rejectEnv : MechEnv := { baseEnv with attemptTrajectory := fun _ _ _ => false }

/-- The base goal with the feasibility-only flag set. -/
def feasGoal : PlaceGoal := { baseGoal with only_perform_feasibility_test := true }

/-- The output of a fully successful preparation run under `happyEnv`. -/
def happyFeasOut : PlaceLocationResult × ExecState × List Effect :=
  (Result .SUCCESS true, ⟨-1, ⟨[⟨[1, 2, 3]⟩]⟩, ⟨[⟨[4, 5, 6]⟩]⟩⟩,
    [Effect.getInterpolatedIKCall (placePhaseRequest happyEnv feasGoal ⟨"base_link", ⟨6⟩⟩),
     Effect.checkStateValidityCall (firstWaypointValidityRequest feasGoal [1, 2, 3]),
     Effect.getInterpolatedIKCall (retreatPhaseRequest happyEnv feasGoal ⟨"base_link", ⟨6⟩⟩
       [1, 2, 3])])

/-- An environment where preparation fully succeeds but the unconstrained
pre-place arm motion is rejected. -/
def moveArmFailEnv : MechEnv :=
  { happyEnv with attemptMoveArmToGoal := fun _ _ _ _ => false }

/-- The full output of an entirely successful direct place run under
`happyEnv`. -/
def happyOut : PlaceLocationResult × ExecState × List Effect :=
  (Result .SUCCESS true, ⟨-1, ⟨[⟨[1, 2, 3]⟩]⟩, ⟨[⟨[4, 5, 6]⟩]⟩⟩,
   [Effect.getInterpolatedIKCall (placePhaseRequest happyEnv baseGoal ⟨"base_link", ⟨6⟩⟩),
    Effect.checkStateValidityCall (firstWaypointValidityRequest baseGoal [1, 2, 3]),
    Effect.getInterpolatedIKCall (retreatPhaseRequest happyEnv baseGoal ⟨"base_link", ⟨6⟩⟩
      [1, 2, 3]),
    Effect.attemptMoveArmToGoalCall ("right_arm") [1, 2, 3],
    Effect.attemptTrajectoryCall ("right_arm") ⟨[⟨[1, 2, 3]⟩]⟩,
    Effect.detachCall ("right_arm") ("obj"),
    Effect.handPostureCall ("right_arm"),
    Effect.translateGripperCall ("right_arm")])

/-- An environment whose transform lookup never reports availability. -/
def noTransformEnv : MechEnv := { baseEnv with waitForTransform := fun _ _ => false }

/-- An environment whose backward place search reports a collision
violation with an empty trajectory short of the minimum distance. -/
def collideEnv : MechEnv :=
  { baseEnv with getInterpolatedIK := fun req =>
      if req.search_backward then ⟨COLLISION_CONSTRAINTS_VIOLATED, ⟨[]⟩, 2⟩
      else ⟨0, ⟨[]⟩, 0⟩ }

/-- An environment whose backward place search succeeds while reporting a
joint-limit code, and whose forward retreat search comes back empty and
short. -/
def retreatBlockedEnv : MechEnv :=
  { baseEnv with getInterpolatedIK := fun req =>
      if req.search_backward then ⟨JOINT_LIMITS_VIOLATED, ⟨[⟨[1, 2, 3]⟩]⟩, 10⟩
      else ⟨0, ⟨[]⟩, 1⟩ }

/-! Helper lemmas and claim theorems. -/

/-- C9: `constraintsUnderstandable` holds exactly on the empty constraint
set and on a set with exactly one orientation constraint and nothing else;
in particular one orientation plus one position constraint, or two
orientation constraints, are rejected. -/
theorem C9_constraintsUnderstandable_characterization :
    (∀ c : Constraints,
      constraintsUnderstandable c = true ↔
        ((c.position_constraints = [] ∧ c.orientation_constraints = [] ∧
          c.joint_constraints = [] ∧ c.visibility_constraints = []) ∨
         (c.orientation_constraints.length = 1 ∧ c.position_constraints = [] ∧
          c.joint_constraints = [] ∧ c.visibility_constraints = []))) ∧
    constraintsUnderstandable ⟨[⟨0⟩], [⟨0⟩], [], []⟩ = false ∧
    constraintsUnderstandable ⟨[], [⟨0⟩, ⟨1⟩], [], []⟩ = false := by
  refine ⟨fun c => ?_, by decide, by decide⟩
  unfold constraintsUnderstandable
  split_ifs with h1 h2
  · simp only [Bool.and_eq_true, List.isEmpty_iff] at h1
    simp [h1]
  · simp only [Bool.and_eq_true, List.isEmpty_iff, beq_iff_eq] at h2
    simp [h2]
  · simp only [Bool.and_eq_true, List.isEmpty_iff, beq_iff_eq, not_and] at h1 h2
    constructor
    · intro h
      simp at h
    · rintro (⟨hp, ho, hj, hv⟩ | ⟨ho, hp, hj, hv⟩)
      · exact absurd hv (h1 ⟨⟨hp, ho⟩, hj⟩)
      · exact absurd hv (h2 ⟨⟨ho, hp⟩, hj⟩)

/-- The marker bookkeeping step emits only marker effects: never a
validity check, an interpolated-IK call, or a motion command. -/
theorem markerStep_trace_benign (env : MechEnv) (s : ExecState) (gp : PoseStamped) :
    ∀ e ∈ (markerStep env s gp).2,
      (∀ vr, e ≠ Effect.checkStateValidityCall vr) ∧
      (∀ rq, e ≠ Effect.getInterpolatedIKCall rq) ∧
      e.isMotion = false := by
  unfold markerStep
  split_ifs <;> intro e he <;> simp only [List.mem_singleton, List.not_mem_nil] at he
  · subst he
    refine ⟨fun vr => by simp, fun rq => by simp, rfl⟩
  · subst he
    refine ⟨fun vr => by simp, fun rq => by simp, rfl⟩

/-- An effect of the approach, detach/release, or retreat steps is in
particular a motion-execution effect. -/
theorem isMotion_of_isApproachDetachOrRetreat (e : Effect)
    (h : e.isApproachDetachOrRetreat = true) : e.isMotion = true := by
  cases e <;> simp_all [Effect.isApproachDetachOrRetreat, Effect.isMotion]

/-- Trajectory preparation only plans and checks: its effect trace never
contains a motion-execution call. -/
theorem prepare_trace_no_motion (env : MechEnv) (g : PlaceGoal) (loc : PoseStamped)
    (s0 : ExecState) (r : PlaceLocationResult) (s1 : ExecState) (tr : List Effect)
    (h : prepareInterpolatedTrajectories env g loc s0 = .ok (r, s1, tr)) :
    ∀ e ∈ tr, e.isMotion = false := by
  unfold prepareInterpolatedTrajectories at h
  split at h
  next => exact absurd h (by simp)
  next gp hgp =>
    simp only [] at h
    split at h
    · split at h
      · simp only [Except.ok.injEq, Prod.mk.injEq] at h
        obtain ⟨-, -, htr⟩ := h
        subst htr
        intro e he
        try simp only [List.append_assoc, List.singleton_append, List.cons_append,
          List.nil_append] at he
        rcases List.mem_append.mp he with hm | hm
        · exact (markerStep_trace_benign env s0 gp e hm).2.2
        · fin_cases hm <;> rfl
      · simp only [Except.ok.injEq, Prod.mk.injEq] at h
        obtain ⟨-, -, htr⟩ := h
        subst htr
        intro e he
        try simp only [List.append_assoc, List.singleton_append, List.cons_append,
          List.nil_append] at he
        rcases List.mem_append.mp he with hm | hm
        · exact (markerStep_trace_benign env s0 gp e hm).2.2
        · fin_cases hm <;> rfl
    · split at h
      next => exact absurd h (by simp)
      next p0 rest =>
        try simp only [] at h
        split at h
        · simp only [Except.ok.injEq, Prod.mk.injEq] at h
          obtain ⟨-, -, htr⟩ := h
          subst htr
          intro e he
          try simp only [List.append_assoc, List.singleton_append, List.cons_append,
            List.nil_append] at he
          rcases List.mem_append.mp he with hm | hm
          · exact (markerStep_trace_benign env s0 gp e hm).2.2
          · fin_cases hm <;> rfl
        · try simp only [] at h
          split at h
          · split at h
            · simp only [Except.ok.injEq, Prod.mk.injEq] at h
              obtain ⟨-, -, htr⟩ := h
              subst htr
              intro e he
              try simp only [List.append_assoc, List.singleton_append, List.cons_append,
                List.nil_append] at he
              rcases List.mem_append.mp he with hm | hm
              · exact (markerStep_trace_benign env s0 gp e hm).2.2
              · fin_cases hm <;> rfl
            · simp only [Except.ok.injEq, Prod.mk.injEq] at h
              obtain ⟨-, -, htr⟩ := h
              subst htr
              intro e he
              try simp only [List.append_assoc, List.singleton_append, List.cons_append,
                List.nil_append] at he
              rcases List.mem_append.mp he with hm | hm
              · exact (markerStep_trace_benign env s0 gp e hm).2.2
              · fin_cases hm <;> rfl
          · simp only [Except.ok.injEq, Prod.mk.injEq] at h
            obtain ⟨-, -, htr⟩ := h
            subst htr
            intro e he
            try simp only [List.append_assoc, List.singleton_append, List.cons_append,
              List.nil_append] at he
            rcases List.mem_append.mp he with hm | hm
            · exact (markerStep_trace_benign env s0 gp e hm).2.2
            · fin_cases hm <;> rfl

/-- C5: when the backward place search covers less than the minimum
approach distance, preparation returns immediately with a location-specific
PLACE_* code (empty trajectory) or PREPLACE_* code (non-empty trajectory)
chosen by the planner error code, and the trace shows no state-validity
check, no retreat (forward) search, and no motion command. -/
theorem C5_place_search_below_min (env : MechEnv) (g : PlaceGoal) (loc : PoseStamped)
    (s0 : ExecState) (gp : PoseStamped) (ik : IKResult)
    (hgp : computeGripperPose env loc g.grasp.grasp_pose (env.robotFrame g.arm_name) = .ok gp)
    (hik : env.getInterpolatedIK (placePhaseRequest env g gp) = ik)
    (hlt : ik.actual_distance < g.approach.min_distance) :
    ∃ s' tr, prepareInterpolatedTrajectories env g loc s0 =
        .ok (Result (if ik.trajectory.points.isEmpty then
            (if ik.error_code = COLLISION_CONSTRAINTS_VIOLATED then .PLACE_IN_COLLISION
             else if ik.error_code = JOINT_LIMITS_VIOLATED then .PLACE_OUT_OF_REACH
             else .PLACE_UNFEASIBLE)
          else
            (if ik.error_code = COLLISION_CONSTRAINTS_VIOLATED then .PREPLACE_IN_COLLISION
             else if ik.error_code = JOINT_LIMITS_VIOLATED then .PREPLACE_OUT_OF_REACH
             else .PREPLACE_UNFEASIBLE)) true, s', tr) ∧
      ∀ e ∈ tr, (∀ vr, e ≠ Effect.checkStateValidityCall vr) ∧
        (∀ rq, rq.search_backward = false → e ≠ Effect.getInterpolatedIKCall rq) ∧
        e.isMotion = false := by
  refine ⟨{ (markerStep env s0 gp).1 with place_trajectory := ik.trajectory },
    (markerStep env s0 gp).2 ++ [Effect.getInterpolatedIKCall (placePhaseRequest env g gp)],
    ?_, ?_⟩
  · unfold prepareInterpolatedTrajectories
    simp only [hgp, hik, if_pos hlt, placeCodeFor, preplaceCodeFor]
    split <;> rfl
  · intro e he
    rcases List.mem_append.mp he with hm | hm
    · obtain ⟨hv, hi, hmot⟩ := markerStep_trace_benign env s0 gp e hm
      exact ⟨hv, fun rq _ => hi rq, hmot⟩
    · simp only [List.mem_singleton] at hm
      subst hm
      refine ⟨fun vr => by simp, fun rq hrq => ?_, rfl⟩
      intro hEq
      have : (placePhaseRequest env g gp).search_backward = false := by
        cases hEq
        exact hrq
      simp [placePhaseRequest] at this

/-- C3: when the place trajectory met the minimum approach distance and
its first waypoint passed the validity check, but the retreat search
achieved less than the minimum retreat distance, the result is the
location-specific PLACE_* code selected by the place-phase error code when
the retreat trajectory is empty (never a RETREAT_* code), and the
corresponding RETREAT_* code when it is non-empty. -/
theorem C3_retreat_search_below_min (env : MechEnv) (g : PlaceGoal) (loc : PoseStamped)
    (s0 : ExecState) (gp : PoseStamped) (ikp ikr : IKResult)
    (q0 : JointTrajectoryPoint) (qs : List JointTrajectoryPoint)
    (hgp : computeGripperPose env loc g.grasp.grasp_pose (env.robotFrame g.arm_name) = .ok gp)
    (hikp : env.getInterpolatedIK (placePhaseRequest env g gp) = ikp)
    (hge : ¬ ikp.actual_distance < g.approach.min_distance)
    (hpts : ikp.trajectory.points = q0 :: qs)
    (hval : env.checkStateValidity (firstWaypointValidityRequest g q0.positions) = true)
    (hikr : env.getInterpolatedIK
      (retreatPhaseRequest env g gp ((qs.getLastD q0).positions)) = ikr)
    (hrlt : ikr.actual_distance < g.min_retreat_distance) :
    ∃ s' tr, prepareInterpolatedTrajectories env g loc s0 =
      .ok (Result (if ikr.trajectory.points.isEmpty then
          (if ikp.error_code = COLLISION_CONSTRAINTS_VIOLATED then .PLACE_IN_COLLISION
           else if ikp.error_code = JOINT_LIMITS_VIOLATED then .PLACE_OUT_OF_REACH
           else .PLACE_UNFEASIBLE)
        else
          (if ikp.error_code = COLLISION_CONSTRAINTS_VIOLATED then .RETREAT_IN_COLLISION
           else if ikp.error_code = JOINT_LIMITS_VIOLATED then .RETREAT_OUT_OF_REACH
           else .RETREAT_UNFEASIBLE)) true, s', tr) := by
  refine ⟨{ (markerStep env s0 gp).1 with
      place_trajectory := ikp.trajectory
      retreat_trajectory := ikr.trajectory }, ?_, ?_⟩
  · exact (markerStep env s0 gp).2 ++
      [Effect.getInterpolatedIKCall (placePhaseRequest env g gp)] ++
      [Effect.checkStateValidityCall (firstWaypointValidityRequest g q0.positions)] ++
      [Effect.getInterpolatedIKCall
        (retreatPhaseRequest env g gp ((qs.getLastD q0).positions))]
  · unfold prepareInterpolatedTrajectories
    simp only [hgp, hikp, if_neg hge, hpts, hval, hikr, if_pos hrlt,
      placeCodeFor, retreatCodeFor]
    split
    next h => exact absurd h (by simp)
    next => split <;> simp_all

/-- C4: the retreat-phase interpolated-IK call's returned error code is
discarded — classification of a failed retreat search reuses the
place-phase error code — so replacing the planner by one that differs
only in the error code reported for forward (retreat-phase) requests
leaves the result of preparation unchanged. -/
theorem C4_retreat_error_code_discarded (env : MechEnv) (f : IKRequest → IKResult)
    (hb : ∀ req : IKRequest, req.search_backward = true →
      f req = env.getInterpolatedIK req)
    (hft : ∀ req : IKRequest, req.search_backward = false →
      (f req).trajectory = (env.getInterpolatedIK req).trajectory)
    (hfd : ∀ req : IKRequest, req.search_backward = false →
      (f req).actual_distance = (env.getInterpolatedIK req).actual_distance)
    (g : PlaceGoal) (loc : PoseStamped) (s0 : ExecState) :
    prepareInterpolatedTrajectories { env with getInterpolatedIK := f } g loc s0 =
      prepareInterpolatedTrajectories env g loc s0 := by
  unfold prepareInterpolatedTrajectories computeGripperPose markerStep placePhaseRequest
    retreatPhaseRequest placePhaseOrd placePhasePadding retreatSearchOrd retreatDirection
    placeDirection firstWaypointValidityRequest
  simp only [hb, hft, hfd]

theorem C4_witness :
    prepareInterpolatedTrajectories { ikVariantEnv with getInterpolatedIK := ikVariantF }
        baseGoal baseLoc initialState =
      prepareInterpolatedTrajectories ikVariantEnv baseGoal baseLoc initialState :=
  C4_retreat_error_code_discarded ikVariantEnv ikVariantF
    (fun req h => by simp [ikVariantF, ikVariantEnv, baseEnv, h])
    (fun req h => by simp [ikVariantF, ikVariantEnv, baseEnv, h])
    (fun req h => by simp [ikVariantF, ikVariantEnv, baseEnv, h])
    baseGoal baseLoc initialState

/-- C10: once the backward place search passes the minimum-approach-
distance check, the first (and last) waypoint of the place trajectory is
accessed with no emptiness guard; an empty trajectory whose achieved
distance still reaches the minimum (e.g. minimum 0, achieved 0) makes the
access out of bounds, and non-emptiness is exactly the precondition that
rules this out. -/
theorem C10_front_access_unguarded (env : MechEnv) (g : PlaceGoal) (loc : PoseStamped)
    (s0 : ExecState) (gp : PoseStamped) (ik : IKResult)
    (hgp : computeGripperPose env loc g.grasp.grasp_pose (env.robotFrame g.arm_name) = .ok gp)
    (hik : env.getInterpolatedIK (placePhaseRequest env g gp) = ik)
    (hge : ¬ ik.actual_distance < g.approach.min_distance) :
    (ik.trajectory.points = [] →
      prepareInterpolatedTrajectories env g loc s0 = .error .outOfBounds) ∧
    (ik.trajectory.points ≠ [] →
      prepareInterpolatedTrajectories env g loc s0 ≠ .error .outOfBounds) := by
  constructor
  · intro hempty
    unfold prepareInterpolatedTrajectories
    simp only [hgp, hik, if_neg hge, hempty]
  · intro hne
    obtain ⟨q0, qs, hq⟩ : ∃ q0 qs, ik.trajectory.points = q0 :: qs := by
      cases h : ik.trajectory.points with
      | nil => exact absurd h hne
      | cons a l => exact ⟨a, l, rfl⟩
    unfold prepareInterpolatedTrajectories
    simp only [hgp, hik, if_neg hge, hq]
    split_ifs <;> simp

theorem C10_witness :
    prepareInterpolatedTrajectories baseEnv zeroMinGoal baseLoc initialState =
      .error .outOfBounds :=
  (C10_front_access_unguarded baseEnv zeroMinGoal baseLoc initialState
    ⟨"base_link", ⟨6⟩⟩ ⟨0, ⟨[]⟩, 0⟩ rfl rfl (by decide)).1 rfl

/-- C2 (amended): the direct (default) approach variant commands the
execution service to attempt the prepared place trajectory and returns
SUCCESS unconditionally; the service's acceptance boolean is discarded,
so rejection also yields SUCCESS rather than PLACE_FAILED. -/
theorem C2_directApproach_always_success (env : MechEnv) (g : PlaceGoal)
    (loc : PoseStamped) (s : ExecState) :
    placeApproach env g loc s =
      .ok (Result .SUCCESS true,
        [Effect.attemptTrajectoryCall g.arm_name s.place_trajectory]) := rfl

/-- C2 counterexample: the execution service rejects the trajectory, yet
the direct approach variant returns SUCCESS, not PLACE_FAILED. -/
theorem C2_counterexample :
    rejectEnv.attemptTrajectory baseGoal.arm_name initialState.place_trajectory true = false ∧
    placeApproach rejectEnv baseGoal baseLoc initialState =
      .ok (Result .SUCCESS true,
        [Effect.attemptTrajectoryCall baseGoal.arm_name initialState.place_trajectory]) ∧
    ResultCode.SUCCESS ≠ ResultCode.PLACE_FAILED := by
  exact ⟨rfl, rfl, by decide⟩

/-- C8: with the feasibility-only flag set, `place` returns the result of
trajectory preparation directly, and the whole trace contains zero calls
to any motion-execution capability. -/
theorem C8_feasibility_only_short_circuit (f : ApproachFn) (env : MechEnv)
    (g : PlaceGoal) (loc : PoseStamped) (s0 : ExecState)
    (r : PlaceLocationResult) (s1 : ExecState) (tr : List Effect)
    (hflag : g.only_perform_feasibility_test = true)
    (hprep : prepareInterpolatedTrajectories env g loc s0 = .ok (r, s1, tr)) :
    placeWith f env g loc s0 = .ok (r, s1, tr) ∧ ∀ e ∈ tr, e.isMotion = false := by
  refine ⟨?_, prepare_trace_no_motion env g loc s0 r s1 tr hprep⟩
  unfold placeWith
  simp only [hprep]
  rw [if_pos (Or.inr hflag)]

theorem C8_witness :
    placeWith placeApproach happyEnv feasGoal baseLoc initialState = .ok happyFeasOut ∧
    ∀ e ∈ happyFeasOut.2.2, e.isMotion = false :=
  C8_feasibility_only_short_circuit placeApproach happyEnv feasGoal baseLoc initialState
    happyFeasOut.1 happyFeasOut.2.1 happyFeasOut.2.2 rfl rfl

/-- C7: the three fatal conditions — transform unavailable within the
wait, a transform-lookup exception, and forward-kinematics failure when
recomputing the pre-place pose — abort the attempt as raised errors
(the `.error` branch) and are never mapped into a PlaceLocationResult
code. -/
theorem C7_fatal_conditions_raise (f : ApproachFn) (env : MechEnv) (g : PlaceGoal)
    (loc : PoseStamped) (s0 : ExecState) :
    (env.waitForTransform (env.robotFrame g.arm_name) loc.frame_id = false →
      placeWith f env g loc s0 =
        .error (.mech (.transformUnavailable loc.frame_id (env.robotFrame g.arm_name)))) ∧
    (∀ m : String,
      env.waitForTransform (env.robotFrame g.arm_name) loc.frame_id = true →
      env.transformPose (env.robotFrame g.arm_name)
          (env.composePose loc.pose g.grasp.grasp_pose) = .error m →
      placeWith f env g loc s0 = .error (.mech (.transformFailure m))) ∧
    (∀ (r : PlaceLocationResult) (s1 : ExecState) (tr : List Effect)
        (p0 : JointTrajectoryPoint) (rest : List JointTrajectoryPoint),
      prepareInterpolatedTrajectories env g loc s0 = .ok (r, s1, tr) →
      r.result_code = .SUCCESS →
      g.only_perform_feasibility_test = false →
      constraintsUnderstandable g.path_constraints = true →
      g.path_constraints.orientation_constraints.isEmpty = false →
      s1.place_trajectory.points = p0 :: rest →
      env.getFK g.arm_name p0.positions = none →
      placeWith f env g loc s0 = .error (.mech .fkFailure)) := by
  refine ⟨?_, ?_, ?_⟩
  · intro hw
    have hcg : computeGripperPose env loc g.grasp.grasp_pose (env.robotFrame g.arm_name) =
        .error (.transformUnavailable loc.frame_id (env.robotFrame g.arm_name)) := by
      unfold computeGripperPose
      simp [hw]
    have hprep : prepareInterpolatedTrajectories env g loc s0 =
        .error (.mech (.transformUnavailable loc.frame_id (env.robotFrame g.arm_name))) := by
      unfold prepareInterpolatedTrajectories
      simp only [hcg]
    unfold placeWith
    simp only [hprep]
  · intro m hw htp
    have hcg : computeGripperPose env loc g.grasp.grasp_pose (env.robotFrame g.arm_name) =
        .error (.transformFailure m) := by
      unfold computeGripperPose
      simp [hw, htp]
    have hprep : prepareInterpolatedTrajectories env g loc s0 =
        .error (.mech (.transformFailure m)) := by
      unfold prepareInterpolatedTrajectories
      simp only [hcg]
    unfold placeWith
    simp only [hprep]
  · intro r s1 tr p0 rest hprep hr hflag hcu hne hpts hfk
    have hcs : constrainedMoveStep env g loc p0.positions = .error (.mech .fkFailure) := by
      unfold constrainedMoveStep
      simp [hcu, hne, hfk]
    unfold placeWith
    simp only [hprep]
    rw [if_neg (by simp [hr, hflag])]
    simp [hpts, hcs]

/-- A non-motion effect is in particular not an approach, detach, or
retreat effect. -/
theorem notApproach_of_notMotion (e : Effect) (h : e.isMotion = false) :
    e.isApproachDetachOrRetreat = false := by
  cases e <;> simp_all [Effect.isMotion, Effect.isApproachDetachOrRetreat]

/-- Constrained motion is skipped — reporting non-success with no
calls — when the constraints are not understandable or contain no
orientation constraint. -/
theorem constrainedMoveStep_skip (env : MechEnv) (g : PlaceGoal) (loc : PoseStamped)
    (frontPos : List Int)
    (h : constraintsUnderstandable g.path_constraints = false ∨
      g.path_constraints.orientation_constraints.isEmpty = true) :
    constrainedMoveStep env g loc frontPos = .ok (false, []) := by
  unfold constrainedMoveStep
  rcases h with h | h <;> simp [h]

/-- Constrained motion that is attempted and rejected by the motion
service reports non-success after the FK and constrained-move
calls. -/
theorem constrainedMoveStep_failed (env : MechEnv) (g : PlaceGoal) (loc : PoseStamped)
    (frontPos : List Int) (fkPose : Pose) (t : Int)
    (hcu : constraintsUnderstandable g.path_constraints = true)
    (hne : g.path_constraints.orientation_constraints.isEmpty = false)
    (hfk : env.getFK g.arm_name frontPos = some fkPose)
    (ht : frontPos[2]? = some t)
    (hmac : env.moveArmConstrained g.arm_name ⟨loc.frame_id, fkPose⟩
      g.additional_collision_operations g.additional_link_padding
      g.path_constraints t false = false) :
    constrainedMoveStep env g loc frontPos =
      .ok (false, [Effect.getFKCall g.arm_name frontPos,
        Effect.moveArmConstrainedCall g.arm_name ⟨loc.frame_id, fkPose⟩]) := by
  unfold constrainedMoveStep
  simp [hcu, hne, hfk, ht, hmac]

/-- C1 (amended): after successful preparation on a non-feasibility-only
goal, when constrained pre-place motion was skipped or failed and
unconstrained pre-place motion also fails, `place` returns
MOVE_ARM_FAILED with locationSpecific = true, and neither the approach,
nor the detach/release, nor the retreat is attempted. -/
theorem C1_unconstrained_move_arm_fails (f : ApproachFn) (env : MechEnv) (g : PlaceGoal)
    (loc : PoseStamped) (s0 : ExecState) (r : PlaceLocationResult) (s1 : ExecState)
    (tr : List Effect) (p0 : JointTrajectoryPoint) (rest : List JointTrajectoryPoint)
    (hprep : prepareInterpolatedTrajectories env g loc s0 = .ok (r, s1, tr))
    (hr : r.result_code = .SUCCESS)
    (hflag : g.only_perform_feasibility_test = false)
    (hpts : s1.place_trajectory.points = p0 :: rest)
    (hskip_or_fail :
      (constraintsUnderstandable g.path_constraints = false ∨
        g.path_constraints.orientation_constraints.isEmpty = true) ∨
      (constraintsUnderstandable g.path_constraints = true ∧
        g.path_constraints.orientation_constraints.isEmpty = false ∧
        ∃ fkPose t, env.getFK g.arm_name p0.positions = some fkPose ∧
          p0.positions[2]? = some t ∧
          env.moveArmConstrained g.arm_name ⟨loc.frame_id, fkPose⟩
            g.additional_collision_operations g.additional_link_padding
            g.path_constraints t false = false))
    (hunc : env.attemptMoveArmToGoal g.arm_name p0.positions
      g.additional_collision_operations g.additional_link_padding = false) :
    ∃ tr2, placeWith f env g loc s0 = .ok (Result .MOVE_ARM_FAILED true, s1, tr2) ∧
      ∀ e ∈ tr2, e.isApproachDetachOrRetreat = false := by
  have hnm := prepare_trace_no_motion env g loc s0 r s1 tr hprep
  rcases hskip_or_fail with hskip | ⟨hcu, hne, fkPose, t, hfk, ht, hmac⟩
  · have hcs := constrainedMoveStep_skip env g loc p0.positions hskip
    have hstep : placeWith f env g loc s0 =
        .ok (Result .MOVE_ARM_FAILED true, s1,
          tr ++ [Effect.attemptMoveArmToGoalCall g.arm_name p0.positions]) := by
      unfold placeWith
      simp [hprep, hr, hflag, hpts, hcs, hunc]
    refine ⟨_, hstep, ?_⟩
    intro e he
    rcases List.mem_append.mp he with hm | hm
    · exact notApproach_of_notMotion e (hnm e hm)
    · fin_cases hm <;> rfl
  · have hcs := constrainedMoveStep_failed env g loc p0.positions fkPose t hcu hne hfk ht hmac
    have hstep : placeWith f env g loc s0 =
        .ok (Result .MOVE_ARM_FAILED true, s1,
          tr ++ [Effect.getFKCall g.arm_name p0.positions,
            Effect.moveArmConstrainedCall g.arm_name ⟨loc.frame_id, fkPose⟩,
            Effect.attemptMoveArmToGoalCall g.arm_name p0.positions]) := by
      unfold placeWith
      simp [hprep, hr, hflag, hpts, hcs, hunc]
    refine ⟨_, hstep, ?_⟩
    intro e he
    rcases List.mem_append.mp he with hm | hm
    · exact notApproach_of_notMotion e (hnm e hm)
    · fin_cases hm <;> rfl

/-- C1 counterexample: with constrained motion skipped (no constraints)
and unconstrained pre-place motion failing, `place` returns
MOVE_ARM_FAILED with locationSpecific = true, not false as claimed. -/
theorem C1_counterexample :
    (place moveArmFailEnv baseGoal baseLoc initialState).map
        (fun out => (out.1.result_code, out.1.location_specific)) =
      .ok (ResultCode.MOVE_ARM_FAILED, true) ∧ (true : Bool) ≠ false :=
  ⟨rfl, by decide⟩

theorem C1_witness :
    ∃ tr2, placeWith placeApproach moveArmFailEnv baseGoal baseLoc initialState =
      .ok (Result .MOVE_ARM_FAILED true, ⟨-1, ⟨[⟨[1, 2, 3]⟩]⟩, ⟨[⟨[4, 5, 6]⟩]⟩⟩, tr2) ∧
      ∀ e ∈ tr2, e.isApproachDetachOrRetreat = false :=
  C1_unconstrained_move_arm_fails placeApproach moveArmFailEnv baseGoal baseLoc initialState
    (Result .SUCCESS true) ⟨-1, ⟨[⟨[1, 2, 3]⟩]⟩, ⟨[⟨[4, 5, 6]⟩]⟩⟩
    [Effect.getInterpolatedIKCall (placePhaseRequest moveArmFailEnv baseGoal ⟨"base_link", ⟨6⟩⟩),
     Effect.checkStateValidityCall (firstWaypointValidityRequest baseGoal [1, 2, 3]),
     Effect.getInterpolatedIKCall (retreatPhaseRequest moveArmFailEnv baseGoal
       ⟨"base_link", ⟨6⟩⟩ [1, 2, 3])]
    ⟨[1, 2, 3]⟩ [] rfl rfl rfl rfl (Or.inl (Or.inr rfl)) rfl

theorem placeCodeFor_ne_SUCCESS (ec : Int) : placeCodeFor ec ≠ .SUCCESS := by
  unfold placeCodeFor
  split_ifs <;> simp

theorem preplaceCodeFor_ne_SUCCESS (ec : Int) : preplaceCodeFor ec ≠ .SUCCESS := by
  unfold preplaceCodeFor
  split_ifs <;> simp

theorem retreatCodeFor_ne_SUCCESS (ec : Int) : retreatCodeFor ec ≠ .SUCCESS := by
  unfold retreatCodeFor
  split_ifs <;> simp

/-- A preparation run that returns SUCCESS has a non-empty place
trajectory whose first waypoint passed the default-padding validity
check, and the check appears in the preparation trace. -/
theorem prepare_success_props (env : MechEnv) (g : PlaceGoal) (loc : PoseStamped)
    (s0 : ExecState) (r : PlaceLocationResult) (s1 : ExecState) (tr : List Effect)
    (h : prepareInterpolatedTrajectories env g loc s0 = .ok (r, s1, tr))
    (hr : r.result_code = .SUCCESS) :
    ∃ p0 rest, s1.place_trajectory.points = p0 :: rest ∧
      env.checkStateValidity (firstWaypointValidityRequest g p0.positions) = true ∧
      Effect.checkStateValidityCall (firstWaypointValidityRequest g p0.positions) ∈ tr := by
  unfold prepareInterpolatedTrajectories at h
  split at h
  next => exact absurd h (by simp)
  next gp hgp =>
    simp only [] at h
    split at h
    · split at h
      · simp only [Except.ok.injEq, Prod.mk.injEq] at h
        obtain ⟨hrr, -, -⟩ := h
        rw [← hrr] at hr
        exact absurd hr (placeCodeFor_ne_SUCCESS _)
      · simp only [Except.ok.injEq, Prod.mk.injEq] at h
        obtain ⟨hrr, -, -⟩ := h
        rw [← hrr] at hr
        exact absurd hr (preplaceCodeFor_ne_SUCCESS _)
    · cases hpoints : (env.getInterpolatedIK (placePhaseRequest env g gp)).trajectory.points with
      | nil =>
        rw [hpoints] at h
        exact absurd h (by simp)
      | cons p0 rest =>
        rw [hpoints] at h
        simp only [] at h
        split at h
        next hv =>
          simp only [Except.ok.injEq, Prod.mk.injEq] at h
          obtain ⟨hrr, -, -⟩ := h
          rw [← hrr] at hr
          exact absurd hr (by decide)
        next hv =>
          try simp only [] at h
          split at h
          · split at h
            · simp only [Except.ok.injEq, Prod.mk.injEq] at h
              obtain ⟨hrr, -, -⟩ := h
              rw [← hrr] at hr
              exact absurd hr (placeCodeFor_ne_SUCCESS _)
            · simp only [Except.ok.injEq, Prod.mk.injEq] at h
              obtain ⟨hrr, -, -⟩ := h
              rw [← hrr] at hr
              exact absurd hr (retreatCodeFor_ne_SUCCESS _)
          · simp only [Except.ok.injEq, Prod.mk.injEq] at h
            obtain ⟨-, hs, htr⟩ := h
            subst hs
            subst htr
            refine ⟨p0, rest, hpoints, ?_, ?_⟩
            · simp only [Bool.not_eq_false] at hv
              exact hv
            · simp

/-- The effects of the constrained-motion step are only FK and
constrained-move calls. -/
theorem constrainedMoveStep_effects (env : MechEnv) (g : PlaceGoal) (loc : PoseStamped)
    (fp : List Int) (cok : Bool) (effC : List Effect)
    (h : constrainedMoveStep env g loc fp = .ok (cok, effC)) :
    ∀ e ∈ effC, (∃ a ps, e = Effect.getFKCall a ps) ∨
      ∃ a p, e = Effect.moveArmConstrainedCall a p := by
  unfold constrainedMoveStep at h
  split at h
  · split at h
    next => exact absurd h (by simp)
    next fkPose hfk =>
      split at h
      next => exact absurd h (by simp)
      next t ht =>
        simp only [Except.ok.injEq, Prod.mk.injEq] at h
        obtain ⟨-, heff⟩ := h
        subst heff
        intro e he
        fin_cases he
        · exact Or.inl ⟨_, _, rfl⟩
        · exact Or.inr ⟨_, _, rfl⟩
  · simp only [Except.ok.injEq, Prod.mk.injEq] at h
    obtain ⟨-, heff⟩ := h
    subst heff
    simp

/-- The tail of `place` after pre-place motion: the approach trace is
appended to the prefix it is given, and a gripper-translation (retreat)
call can only appear in the part that follows an approach returning
SUCCESS. -/
theorem placeFinish_trace (f : ApproachFn) (env : MechEnv) (g : PlaceGoal)
    (loc : PoseStamped) (s1 : ExecState) (effs : List Effect)
    (out : PlaceLocationResult × ExecState × List Effect)
    (h : placeFinish f env g loc s1 effs = .ok out) :
    ∃ ra effA tail, f env g loc s1 = .ok (ra, effA) ∧
      out.2.2 = (effs ++ effA) ++ tail ∧
      (∀ arm, Effect.translateGripperCall arm ∈ tail → ra.result_code = .SUCCESS) := by
  unfold placeFinish at h
  split at h
  next => exact absurd h (by simp)
  next ra effA hfe =>
    try simp only [] at h
    split at h
    next hne =>
      simp only [Except.ok.injEq] at h
      subst h
      exact ⟨ra, effA, [], hfe, by simp, by simp⟩
    next hne =>
      have hras : ra.result_code = .SUCCESS := not_not.mp hne
      try simp only [] at h
      split at h
      · simp only [Except.ok.injEq] at h
        subst h
        refine ⟨ra, effA,
          [Effect.detachCall g.arm_name g.collision_object_name,
           Effect.handPostureCall g.arm_name] ++ (retreat env g).2, hfe,
          by simp, fun arm hm => hras⟩
      · simp only [Except.ok.injEq] at h
        subst h
        refine ⟨ra, effA,
          [Effect.detachCall g.arm_name g.collision_object_name,
           Effect.handPostureCall g.arm_name] ++ (retreat env g).2, hfe,
          by simp, fun arm hm => hras⟩

/-- C6: in every completed run of the orchestrator, (1) any
motion-execution call in the trace implies that preparation returned
SUCCESS and that the place trajectory's first waypoint passed the
default-padding validity check, the check sitting in the motion-free
preparation prefix of the trace; and (2) a gripper-translation (retreat)
call occurs only after the approach step returned SUCCESS. -/
theorem C6_motion_ordering (f : ApproachFn) (env : MechEnv) (g : PlaceGoal)
    (loc : PoseStamped) (s0 : ExecState)
    (hfA : ∀ (s : ExecState) (ra : PlaceLocationResult) (effA : List Effect),
      f env g loc s = .ok (ra, effA) → ∀ arm, Effect.translateGripperCall arm ∉ effA)
    (out : PlaceLocationResult × ExecState × List Effect)
    (h : placeWith f env g loc s0 = .ok out) :
    ((∃ e ∈ out.2.2, e.isMotion = true) →
      ∃ r s1 tr1 tr2 p0 rest,
        prepareInterpolatedTrajectories env g loc s0 = .ok (r, s1, tr1) ∧
        r.result_code = .SUCCESS ∧
        s1.place_trajectory.points = p0 :: rest ∧
        env.checkStateValidity (firstWaypointValidityRequest g p0.positions) = true ∧
        out.2.2 = tr1 ++ tr2 ∧
        Effect.checkStateValidityCall (firstWaypointValidityRequest g p0.positions) ∈ tr1 ∧
        (∀ e1 ∈ tr1, e1.isMotion = false)) ∧
    (∀ arm, Effect.translateGripperCall arm ∈ out.2.2 →
      ∃ s1 ra effA, f env g loc s1 = .ok (ra, effA) ∧ ra.result_code = .SUCCESS) := by
  unfold placeWith at h
  split at h
  next => exact absurd h (by simp)
  next result s1 eff1 hprep =>
    have hnm1 := prepare_trace_no_motion env g loc s0 result s1 eff1 hprep
    split at h
    next hcond =>
      simp only [Except.ok.injEq] at h
      subst h
      constructor
      · rintro ⟨e, he, hm⟩
        have hf := hnm1 e he
        rw [hf] at hm
        exact absurd hm (by decide)
      · intro arm hmem
        have hf := hnm1 _ hmem
        exact absurd hf (by simp [Effect.isMotion])
    next hcond =>
      push_neg at hcond
      obtain ⟨hrs, -⟩ := hcond
      obtain ⟨p0', rest', hpts', hval', hvmem'⟩ :=
        prepare_success_props env g loc s0 result s1 eff1 hprep hrs
      split at h
      next => exact absurd h (by simp)
      next p0 rest hpts0 =>
        try simp only [] at h
        split at h
        next => exact absurd h (by simp)
        next cok effC hcs =>
          have heffC := constrainedMoveStep_effects env g loc p0.positions cok effC hcs
          split at h
          next hcok =>
            obtain ⟨ra, effA, tail, hfe, htrace, htail⟩ :=
              placeFinish_trace f env g loc s1 _ out h
            constructor
            · rintro -
              refine ⟨result, s1, eff1, effC ++ effA ++ tail, p0', rest', hprep, hrs,
                hpts', hval', ?_, hvmem', hnm1⟩
              rw [htrace]
              simp [List.append_assoc]
            · intro arm hmem
              rw [htrace] at hmem
              simp only [List.append_assoc, List.mem_append] at hmem
              rcases hmem with hm | hm | hm | hm
              · have hf := hnm1 _ hm
                exact absurd hf (by simp [Effect.isMotion])
              · rcases heffC _ hm with ⟨a, ps, hEq⟩ | ⟨a, p, hEq⟩ <;> simp at hEq
              · exact absurd hm (hfA s1 ra effA hfe arm)
              · exact ⟨s1, ra, effA, hfe, htail arm hm⟩
          next hcok =>
            split at h
            next hunc =>
              simp only [Except.ok.injEq] at h
              subst h
              constructor
              · rintro -
                refine ⟨result, s1, eff1,
                  effC ++ [Effect.attemptMoveArmToGoalCall g.arm_name p0.positions],
                  p0', rest', hprep, hrs, hpts', hval', by simp, hvmem', hnm1⟩
              · intro arm hmem
                simp only [List.append_assoc, List.mem_append] at hmem
                rcases hmem with hm | hm | hm
                · have hf := hnm1 _ hm
                  exact absurd hf (by simp [Effect.isMotion])
                · rcases heffC _ hm with ⟨a, ps, hEq⟩ | ⟨a, p, hEq⟩ <;> simp at hEq
                · simp at hm
            next hunc =>
              obtain ⟨ra, effA, tail, hfe, htrace, htail⟩ :=
                placeFinish_trace f env g loc s1 _ out h
              constructor
              · rintro -
                refine ⟨result, s1, eff1,
                  effC ++ [Effect.attemptMoveArmToGoalCall g.arm_name p0.positions] ++
                    effA ++ tail,
                  p0', rest', hprep, hrs, hpts', hval', ?_, hvmem', hnm1⟩
                rw [htrace]
                simp [List.append_assoc]
              · intro arm hmem
                rw [htrace] at hmem
                simp only [List.append_assoc, List.mem_append] at hmem
                rcases hmem with hm | hm | hm | hm | hm
                · have hf := hnm1 _ hm
                  exact absurd hf (by simp [Effect.isMotion])
                · rcases heffC _ hm with ⟨a, ps, hEq⟩ | ⟨a, p, hEq⟩ <;> simp at hEq
                · simp at hm
                · exact absurd hm (hfA s1 ra effA hfe arm)
                · exact ⟨s1, ra, effA, hfe, htail arm hm⟩

theorem C6_witness :
    ∃ s1 ra effA, placeApproach happyEnv baseGoal baseLoc s1 = .ok (ra, effA) ∧
      ra.result_code = .SUCCESS :=
  (C6_motion_ordering placeApproach happyEnv baseGoal baseLoc initialState
      (fun s ra effA hh arm hmem => by
        simp only [placeApproach, Except.ok.injEq, Prod.mk.injEq] at hh
        obtain ⟨-, heff⟩ := hh
        subst heff
        simp at hmem)
      happyOut rfl).2 ("right_arm") (by simp [happyOut])

theorem C7_witness :
    placeWith placeApproach noTransformEnv baseGoal baseLoc initialState =
      .error (.mech (.transformUnavailable ("base_link") ("base_link"))) :=
  (C7_fatal_conditions_raise placeApproach noTransformEnv baseGoal baseLoc
    initialState).1 rfl

theorem C5_witness :
    ∃ s' tr, prepareInterpolatedTrajectories collideEnv baseGoal baseLoc initialState =
      .ok (Result .PLACE_IN_COLLISION true, s', tr) := by
  obtain ⟨s', tr, h1, -⟩ := C5_place_search_below_min collideEnv baseGoal baseLoc
    initialState ⟨"base_link", ⟨6⟩⟩ ⟨COLLISION_CONSTRAINTS_VIOLATED, ⟨[]⟩, 2⟩
    rfl rfl (by decide)
  exact ⟨s', tr, h1⟩

theorem C3_witness :
    ∃ s' tr, prepareInterpolatedTrajectories retreatBlockedEnv baseGoal baseLoc
        initialState = .ok (Result .PLACE_OUT_OF_REACH true, s', tr) := by
  obtain ⟨s', tr, h⟩ := C3_retreat_search_below_min retreatBlockedEnv baseGoal baseLoc
    initialState ⟨"base_link", ⟨6⟩⟩ ⟨JOINT_LIMITS_VIOLATED, ⟨[⟨[1, 2, 3]⟩]⟩, 10⟩
    ⟨0, ⟨[]⟩, 1⟩ ⟨[1, 2, 3]⟩ [] rfl rfl (by decide) rfl rfl rfl (by decide)
  exact ⟨s', tr, h⟩

end ObjMan
